import Mathlib

/-!
# Shallow embedding of the logbook dive-logging application

This file embeds the data model and the operations of the repository's
service layer (`src/services/userService.ts`, `src/services/storageService.ts`
and the types of `src/types.ts`) as executable Lean definitions, and proves
the specified properties about them.

Modelling conventions:
* JavaScript strings are Lean `String`s (lists of characters); the whitespace
  class of `String.prototype.trim` and of the regex `\s` is modelled by
  `jsWhitespace`, covering the ASCII whitespace characters; `toLowerCase` is
  modelled on the Basic Latin range (`A`-`Z`), which is its behaviour on all
  ASCII input.
* JavaScript numbers that the verified logic compares (depths, temperatures,
  durations, pressures, dive numbers) are modelled as `Int`.
* The Firestore document store is modelled as an explicit state value that is
  threaded through each operation; a Firestore transaction body runs
  atomically, so `runTransaction` is modelled as a pure state transformer
  (the backend serialises transactions, which is exactly the guarantee the
  code relies on).
* Fallible operations return `Except String`, the error string being the JS
  `Error` message thrown by the source.
* JavaScript truthiness tests on strings (`if (x)`) are modelled as
  comparisons with the empty string, and on optional values as `Option`
  matches.
-/

namespace Logbook

/-- The ASCII whitespace characters matched by the JS regex class `\s`
(and trimmed by `String.prototype.trim`): space, tab, line feed,
carriage return, vertical tab, form feed. -/
def jsWhitespace (c : Char) : Bool :=
  c = ' ' || c = '\t' || c = '\n' || c = '\r' || c = '\x0b' || c = '\x0c'

/-- JS `String.prototype.toLowerCase` on one character, for the Basic Latin
range: `A`-`Z` map to `a`-`z`, everything else is unchanged. -/
def jsToLower (c : Char) : Char :=
  if 65 ≤ c.toNat ∧ c.toNat ≤ 90 then Char.ofNat (c.toNat + 32) else c

/-- Strip leading JS whitespace. -/
def trimLeft (l : List Char) : List Char := l.dropWhile jsWhitespace

/-- Strip trailing JS whitespace. -/
def trimRight (l : List Char) : List Char :=
  (l.reverse.dropWhile jsWhitespace).reverse

/-- JS `String.prototype.trim`: strip leading and trailing JS whitespace. -/
def jsTrim (l : List Char) : List Char := trimRight (trimLeft l)

/-- Replace every maximal run of JS whitespace by a single space, as the
regex replacement `.replace(/\s+/g, " ")` does.  The `inRun` flag records
whether the previously read character was part of a whitespace run whose
replacement space has already been emitted. -/
def collapseWsAux : Bool → List Char → List Char
  | _, [] => []
  | inRun, c :: rest =>
    if jsWhitespace c then
      if inRun then collapseWsAux true rest
      else ' ' :: collapseWsAux true rest
    else c :: collapseWsAux false rest

/-- The replacement `.replace(/\s+/g, " ")` on a character list. -/
def collapseWs (l : List Char) : List Char := collapseWsAux false l

/-- Embeds `normalizeDisplayName` (src/services/userService.ts):
`value.trim().toLowerCase().replace(/\s+/g, " ")`. -/
def normalizeDisplayName (value : String) : String :=
  ⟨collapseWs ((jsTrim value.data).map jsToLower)⟩

/-- One document of the `displayNames` collection, as written by
`reserveDisplayName`. -/
structure Reservation where
  uid : String
  displayName : String
  normalized : String
  updatedAt : Nat
deriving DecidableEq

/-- The `displayNames` collection: normalized name to reservation document. -/
def NameStore := String → Option Reservation

/-- The `options` argument of `reserveDisplayName`; `none` models an absent
`previousDisplayName`. -/
structure ReserveOptions where
  validateOnly : Bool
  previousDisplayName : Option String

/-- The conflict test of the transaction body:
`existingUid && existingUid !== uid` — the document exists and its `uid`
field is truthy (non-empty) and differs from the requester. -/
def reservedByOther (store : NameStore) (normalized uid : String) : Bool :=
  match store normalized with
  | some r => decide (r.uid ≠ "" ∧ r.uid ≠ uid)
  | none => false

/-- The write `tx.set(ref, { uid, displayName, normalized, updatedAt: Date.now() })`:
overwrite the document at the normalized key. -/
def setReservation (store : NameStore) (normalized : String) (now : Nat)
    (uid displayName : String) : NameStore :=
  fun k => if k = normalized then some ⟨uid, displayName, normalized, now⟩ else store k

/-- The write phase of the transaction: set the new reservation, and if a
truthy `previousDisplayName` was supplied whose normalization is non-empty
and differs from the new key, delete the old document. -/
def applyReservation (store : NameStore) (normalized : String) (now : Nat)
    (uid displayName : String) (prev : Option String) : NameStore :=
  let st1 := setReservation store normalized now uid displayName
  match prev with
  | none => st1
  | some p =>
    if p = "" then st1
    else
      let pn := normalizeDisplayName p
      if pn ≠ "" ∧ pn ≠ normalized then fun k => if k = pn then none else st1 k
      else st1

/-- Embeds `reserveDisplayName` (src/services/userService.ts).  The transaction
body runs atomically; `now` stands for `Date.now()`.  Throws are modelled
as `Except.error` of the JS error message; on success the source resolves
with `true` and the updated store. -/
def reserveDisplayName (store : NameStore) (now : Nat) (uid displayName : String)
    (options : ReserveOptions) : Except String (Bool × NameStore) :=
  let normalized := normalizeDisplayName displayName
  if normalized = "" then Except.error "invalid_display_name"
  else if reservedByOther store normalized uid then Except.error "display_name_taken"
  else if options.validateOnly then Except.ok (true, store)
  else Except.ok (true, applyReservation store normalized now uid displayName
    options.previousDisplayName)

/-! ## Data model (src/types.ts) -/

/-- The `DiveType` enum. -/
inductive DiveType where
  | funDive | training | night | deep | wreck | drift | photography
deriving DecidableEq

/-- Embeds `GeoLocation`. -/
structure GeoLocation where
  lat : Int
  lng : Int
  name : String
deriving DecidableEq

/-- Embeds `MarineLife`. -/
structure MarineLife where
  id : String
  name : String
  scientificName : Option String
  description : Option String
  imageUrl : Option String
deriving DecidableEq

/-- Embeds `DiveLog` as the application type. -/
structure DiveLog where
  id : String
  date : String
  location : String
  geo : Option GeoLocation
  siteName : String
  diveNumber : Int
  timeIn : String
  timeOut : String
  durationMinutes : Int
  maxDepthMeters : Int
  avgDepthMeters : Option Int
  startPressureBar : Int
  endPressureBar : Int
  visibilityMeters : Int
  waterTempCelsius : Int
  suitThicknessMm : Int
  weightsKg : Int
  diveType : DiveType
  notes : String
  buddies : String
  marineLifeSightings : List MarineLife
  photos : List String
  photoStoragePaths : Option (List String)
  rating : Int
deriving DecidableEq

/-- Badge `category` values. -/
inductive BadgeCategory where
  | marine | terrain
deriving DecidableEq

/-- Embeds `Badge`: the `condition` field is the unlock predicate over the log list. -/
structure Badge where
  id : String
  name : String
  description : String
  icon : String
  storagePath : Option String
  unlockedAt : Option String
  category : Option BadgeCategory
  condition : List DiveLog → Bool

/-! ## Badge catalog (src/services/storageService.ts, `AVAILABLE_BADGES`) -/

/-- JS `parseInt` in base 10 on the leading digits of a string: skip leading
whitespace, read an optional sign and then a maximal digit run; `none`
models `NaN` (no digits found). -/
def jsParseInt (s : String) : Option Int :=
  let l := s.data.dropWhile jsWhitespace
  match l with
  | '-' :: rest => (digitsValue rest).map (fun n => -(n : Int))
  | '+' :: rest => (digitsValue rest).map (fun n => (n : Int))
  | rest => (digitsValue rest).map (fun n => (n : Int))
where
  /-- Value of the maximal leading digit run, `none` when there is none. -/
  digitsValue (l : List Char) : Option Nat :=
    let ds := l.takeWhile (fun c => c.isDigit)
    if ds = [] then none
    else some (ds.foldl (fun acc c => acc * 10 + (c.toNat - 48)) 0)

/-- The field access `timeIn.split(':')[0]`: the characters before the first colon. -/
def beforeColon (s : String) : String :=
  ⟨s.data.takeWhile (fun c => !(c = ':' : Bool))⟩

/-- Badge `first-splash`: `logs.length >= 1`. -/
def firstSplashBadge : Badge :=
  ⟨"first-splash", "첫 입수", "첫 번째 다이빙 로그를 기록했습니다.", "🤿",
    none, none, none, fun logs => decide (1 ≤ logs.length)⟩

/-- Badge `first-step`: `logs.length >= 4`. -/
def firstStepBadge : Badge :=
  ⟨"first-step", "오픈워터", "다이빙 로그 4회를 기록했습니다.", "🥉",
    none, none, none, fun logs => decide (4 ≤ logs.length)⟩

/-- Badge `adv-diver`: `logs.length >= 20`. -/
def advDiverBadge : Badge :=
  ⟨"adv-diver", "어드밴스드", "다이빙 로그 20회를 기록했습니다.", "🥈",
    none, none, none, fun logs => decide (20 ≤ logs.length)⟩

/-- Badge `veteran-diver`: `logs.length >= 50`. -/
def veteranDiverBadge : Badge :=
  ⟨"veteran-diver", "마스터 다이버", "총 50회 이상의 다이빙을 기록했습니다.", "🥇",
    none, none, none, fun logs => decide (50 ≤ logs.length)⟩

/-- Badge `century-diver`: `logs.length >= 100`. -/
def centuryDiverBadge : Badge :=
  ⟨"century-diver", "100 로그 달성", "총 100회의 다이빙을 기록했습니다.", "💯",
    none, none, none, fun logs => decide (100 ≤ logs.length)⟩

/-- Badge `deep-diver`: `logs.some(l => l.maxDepthMeters >= 30)`. -/
def deepDiverBadge : Badge :=
  ⟨"deep-diver", "심해 탐험가", "30m 이상 깊이의 다이빙을 기록했습니다.", "⚓",
    none, none, none, fun logs => logs.any (fun l => decide ((30 : Int) ≤ l.maxDepthMeters))⟩

/-- Badge `night-owl`: at least 3 logs with `diveType === DiveType.NIGHT`. -/
def nightOwlBadge : Badge :=
  ⟨"night-owl", "밤의 지배자", "나이트 다이빙을 3회 이상 기록했습니다.", "🌙",
    none, none, none,
    fun logs => decide (3 ≤ (logs.filter (fun l => l.diveType = DiveType.night)).length)⟩

/-- Badge `marine-biologist`: at least 10 distinct sighting names across all
logs (JS builds a `Set` of the names). -/
def marineBiologistBadge : Badge :=
  ⟨"marine-biologist", "해양 생물학자", "총 10종 이상의 해양 생물을 기록했습니다.", "🐠",
    none, none, none,
    fun logs =>
      decide (10 ≤ (logs.flatMap (fun l => l.marineLifeSightings.map (·.name))).toFinset.card)⟩

/-- Badge `shutterbug`: at least 5 logs with a non-empty `photos` array. -/
def shutterbugBadge : Badge :=
  ⟨"shutterbug", "수중 사진가", "사진이 포함된 로그를 5개 이상 작성했습니다.", "📸",
    none, none, none,
    fun logs => decide (5 ≤ (logs.filter (fun l => decide (0 < l.photos.length))).length)⟩

/-- Badge `globe-trotter`: at least 3 distinct `location` values. -/
def globeTrotterBadge : Badge :=
  ⟨"globe-trotter", "오션 익스플로러", "3곳 이상의 다른 지역에서 다이빙했습니다.", "🌏",
    none, none, none,
    fun logs => decide (3 ≤ (logs.map (·.location)).toFinset.card)⟩

/-- Badge `cold-blooded`: `logs.some(l => l.waterTempCelsius <= 15)`. -/
def coldBloodedBadge : Badge :=
  ⟨"cold-blooded", "아이스 다이버", "수온 15도 이하에서 다이빙했습니다.", "❄️",
    none, none, none, fun logs => logs.any (fun l => decide (l.waterTempCelsius ≤ (15 : Int)))⟩

/-- Badge `tropical-diver`: at least 5 logs with `waterTempCelsius >= 28`. -/
def tropicalDiverBadge : Badge :=
  ⟨"tropical-diver", "트로피컬 다이버",
    "수온 28도 이상의 따뜻한 바다에서 5회 이상 다이빙했습니다.", "🏝️",
    none, none, none,
    fun logs =>
      decide (5 ≤ (logs.filter (fun l => decide ((28 : Int) ≤ l.waterTempCelsius))).length)⟩

/-- Badge `long-breath`: `logs.some(l => l.durationMinutes >= 60)`. -/
def longBreathBadge : Badge :=
  ⟨"long-breath", "강철 폐활량", "한 번의 다이빙에서 60분 이상 체류했습니다.", "😤",
    none, none, none, fun logs => logs.any (fun l => decide ((60 : Int) ≤ l.durationMinutes))⟩

/-- Badge `early-bird`: some log whose truthy `timeIn` parses (before the
first colon) to an hour below 8; a `NaN` hour (unparsable) does not count. -/
def earlyBirdBadge : Badge :=
  ⟨"early-bird", "얼리 버드", "오전 8시 이전에 입수했습니다.", "🌅",
    none, none, none,
    fun logs => logs.any (fun l =>
      if l.timeIn = "" then false
      else match jsParseInt (beforeColon l.timeIn) with
        | some hour => decide (hour < 8)
        | none => false)⟩

/-- Badge `safety-first`: at least 10 logs with `endPressureBar >= 50`. -/
def safetyFirstBadge : Badge :=
  ⟨"safety-first", "안전 제일", "50bar 이상 남기고 출수한 로그가 10개 이상입니다.", "🛡️",
    none, none, none,
    fun logs =>
      decide (10 ≤ (logs.filter (fun l => decide ((50 : Int) ≤ l.endPressureBar))).length)⟩

/-- Embeds `AVAILABLE_BADGES` (src/services/storageService.ts): the fixed catalog of
the 15 predicate-backed badges, in source order. -/
def AVAILABLE_BADGES : List Badge :=
  [firstSplashBadge, firstStepBadge, advDiverBadge, veteranDiverBadge,
   centuryDiverBadge, deepDiverBadge, nightOwlBadge, marineBiologistBadge,
   shutterbugBadge, globeTrotterBadge, coldBloodedBadge, tropicalDiverBadge,
   longBreathBadge, earlyBirdBadge, safetyFirstBadge]

/-! ## Storage service state (src/services/storageService.ts)

Firestore per-user sub-collections are modelled as association lists of
`(document id, data)` pairs; the Firebase Storage bucket is a predicate on
paths (`true` = a blob exists at the path).  `fails` is the set of paths at
which the underlying `deleteObject` call fails. -/

/-- A persisted custom badge document (a `Badge` without its `condition`). -/
structure StoredBadge where
  id : String
  name : String
  description : String
  icon : String
  storagePath : Option String
  unlockedAt : Option String
  category : Option BadgeCategory
deriving DecidableEq

/-- A persisted dive-log document.  The `photos`, `photoStoragePaths` and
`marineLifeSightings` fields may be absent from a document (the readers
default them), hence `Option`. -/
structure StoredDiveLog where
  id : String
  date : String
  location : String
  geo : Option GeoLocation
  siteName : String
  diveNumber : Int
  timeIn : String
  timeOut : String
  durationMinutes : Int
  maxDepthMeters : Int
  avgDepthMeters : Option Int
  startPressureBar : Int
  endPressureBar : Int
  visibilityMeters : Int
  waterTempCelsius : Int
  suitThicknessMm : Int
  weightsKg : Int
  diveType : DiveType
  notes : String
  buddies : String
  marineLifeSightings : Option (List MarineLife)
  photos : Option (List String)
  photoStoragePaths : Option (List String)
  rating : Int
deriving DecidableEq

/-- The blob bucket. -/
def Blobs := String → Bool

/-- The persistent state touched by the dive-log repository. -/
structure CloudState where
  userLogs : String → List (String × StoredDiveLog)
  userBadges : String → List (String × StoredBadge)
  blobs : Blobs

/-- Firestore `deleteObject`: fails on the paths in `fails`, otherwise
removes the blob. -/
def deleteObject (fails : String → Bool) (blobs : Blobs) (path : String) :
    Except String Blobs :=
  if fails path then Except.error "storage_error"
  else Except.ok (fun p => if p = path then false else blobs p)

/-- Embeds `deleteStoragePath`: skip falsy paths, and catch (log and swallow) any
failure of the underlying `deleteObject`. -/
def deleteStoragePath (fails : String → Bool) (blobs : Blobs) (path : String) : Blobs :=
  if path = "" then blobs
  else
    match deleteObject fails blobs path with
    | Except.ok b => b
    | Except.error _ => blobs

/-- Delete each path of a list in turn (`Promise.all(paths.map(deleteStoragePath))`;
the deletions touch distinct paths, so the serialisation is faithful). -/
def deleteStoragePaths (fails : String → Bool) (blobs : Blobs)
    (paths : List String) : Blobs :=
  paths.foldl (fun b p => deleteStoragePath fails b p) blobs

/-- Look a document up in a collection by id. -/
def findDoc {α : Type} (coll : List (String × α)) (id : String) : Option α :=
  (coll.find? (fun e => e.1 = id)).map (·.2)

/-- Remove the document with the given id. -/
def removeDoc {α : Type} (coll : List (String × α)) (id : String) :
    List (String × α) :=
  coll.filter (fun e => !(e.1 = id : Bool))

/-- Firestore `setDoc`: replace the document with the given id, or insert it. -/
def setDocIn {α : Type} (coll : List (String × α)) (id : String) (v : α) :
    List (String × α) :=
  if (coll.find? (fun e => e.1 = id)).isSome then
    coll.map (fun e => if e.1 = id then (id, v) else e)
  else coll ++ [(id, v)]

/-- Descending order on the user-chosen sequence number, the sort key of the
`orderBy('diveNumber', 'desc')` query. -/
def byDiveNumberDesc (a b : StoredDiveLog) : Prop :=
  b.diveNumber ≤ a.diveNumber

instance : DecidableRel byDiveNumberDesc :=
  fun a b => inferInstanceAs (Decidable (b.diveNumber ≤ a.diveNumber))

instance : IsTotal StoredDiveLog byDiveNumberDesc :=
  ⟨fun a b => (Int.le_total b.diveNumber a.diveNumber).elim Or.inl Or.inr⟩

instance : IsTrans StoredDiveLog byDiveNumberDesc :=
  ⟨fun _ _ _ hab hbc => le_trans hbc hab⟩

/-- The per-document mapping applied by `getLogs`: spread the data and
default the three possibly-absent array fields. -/
def storedToDiveLog (d : StoredDiveLog) : DiveLog :=
  ⟨d.id, d.date, d.location, d.geo, d.siteName, d.diveNumber, d.timeIn,
   d.timeOut, d.durationMinutes, d.maxDepthMeters, d.avgDepthMeters,
   d.startPressureBar, d.endPressureBar, d.visibilityMeters,
   d.waterTempCelsius, d.suitThicknessMm, d.weightsKg, d.diveType, d.notes,
   d.buddies, d.marineLifeSightings.getD [], d.photos.getD [],
   some (d.photoStoragePaths.getD []), d.rating⟩

/-- The document written by `saveLog` (`{ ...log, id, photos, photoStoragePaths }`). -/
def diveLogToStored (l : DiveLog) : StoredDiveLog :=
  ⟨l.id, l.date, l.location, l.geo, l.siteName, l.diveNumber, l.timeIn,
   l.timeOut, l.durationMinutes, l.maxDepthMeters, l.avgDepthMeters,
   l.startPressureBar, l.endPressureBar, l.visibilityMeters,
   l.waterTempCelsius, l.suitThicknessMm, l.weightsKg, l.diveType, l.notes,
   l.buddies, some l.marineLifeSightings, some l.photos, l.photoStoragePaths,
   l.rating⟩

/-- Embeds `getLogs`: for a missing user id return `[]`, otherwise the user's logs
ordered by `diveNumber` descending, each document normalised by
`storedToDiveLog`. -/
def getLogs (st : CloudState) (userId : Option String) : List DiveLog :=
  match userId with
  | none => []
  | some u =>
    if u = "" then []
    else
      (List.insertionSort byDiveNumberDesc ((st.userLogs u).map Prod.snd)).map
        storedToDiveLog

/-- The authenticated path of `deleteLog`: delete every truthy path of the
record's `photoStoragePaths` (if the record exists and carries the field)
and then delete the record itself. -/
def deleteLogAuth (fails : String → Bool) (st : CloudState) (id u : String) :
    CloudState :=
  let blobs1 :=
    match findDoc (st.userLogs u) id with
    | some d =>
      match d.photoStoragePaths with
      | some ps => deleteStoragePaths fails st.blobs (ps.filter (fun p => !(p = "" : Bool)))
      | none => st.blobs
    | none => st.blobs
  { st with
    blobs := blobs1,
    userLogs := fun v => if v = u then removeDoc (st.userLogs u) id else st.userLogs v }

/-- Embeds `deleteLog`: throws unless a truthy user id is given, then runs
`deleteLogAuth`. -/
def deleteLog (fails : String → Bool) (st : CloudState) (id : String)
    (userId : Option String) : Except String CloudState :=
  match userId with
  | none => Except.error "User not authenticated"
  | some u =>
    if u = "" then Except.error "User not authenticated"
    else Except.ok (deleteLogAuth fails st id u)

/-- The authenticated path of `deleteCustomBadge`: delete the badge's icon
blob (when the record has a truthy `storagePath`) and then the record. -/
def deleteCustomBadgeAuth (fails : String → Bool) (st : CloudState)
    (badgeId u : String) : CloudState :=
  let blobs1 :=
    match findDoc (st.userBadges u) badgeId with
    | some d =>
      match d.storagePath with
      | some p => if p = "" then st.blobs else deleteStoragePath fails st.blobs p
      | none => st.blobs
    | none => st.blobs
  { st with
    blobs := blobs1,
    userBadges := fun v => if v = u then removeDoc (st.userBadges u) badgeId else st.userBadges v }

/-- Embeds `deleteCustomBadge`: throws unless a truthy user id is given, then runs
`deleteCustomBadgeAuth`. -/
def deleteCustomBadge (fails : String → Bool) (st : CloudState) (badgeId : String)
    (userId : Option String) : Except String CloudState :=
  match userId with
  | none => Except.error "User not authenticated"
  | some u =>
    if u = "" then Except.error "User not authenticated"
    else Except.ok (deleteCustomBadgeAuth fails st badgeId u)

/-- The body of the `processLogPhotos` loop.  `i` is the loop index,
`pathGen i` the fresh storage path built from `Date.now()`, the index and a
random suffix, and `urlOf` the download URL of an uploaded path.  Uploads
are assumed to succeed (the source does not catch their failures; they
abort the operation, which is outside the verified claims). -/
def photosLoop (fails : String → Bool) (pathGen : Nat → String)
    (urlOf : String → String) (existingPaths : List String) :
    Nat → Blobs → List String → List String × List String × Blobs
  | _, blobs, [] => ([], [], blobs)
  | i, blobs, photo :: rest =>
    if photo = "" then photosLoop fails pathGen urlOf existingPaths (i + 1) blobs rest
    else if photo.startsWith "data:" then
      let ep := existingPaths.getD i ""
      let b1 := if ep = "" then blobs else deleteStoragePath fails blobs ep
      let path := pathGen i
      let b2 : Blobs := fun p => if p = path then true else b1 p
      let r := photosLoop fails pathGen urlOf existingPaths (i + 1) b2 rest
      (urlOf path :: r.1, path :: r.2.1, r.2.2)
    else
      let r := photosLoop fails pathGen urlOf existingPaths (i + 1) blobs rest
      (photo :: r.1, (existingPaths.getD i "") :: r.2.1, r.2.2)

/-- Embeds `processLogPhotos`: returns the final `photos` and `photoStoragePaths`
arrays and the updated bucket.  An empty `photos` input deletes every truthy
existing path; otherwise the loop runs and any leftover existing paths
beyond the new array's length are deleted as stale. -/
def processLogPhotos (fails : String → Bool) (pathGen : Nat → String)
    (urlOf : String → String) (blobs : Blobs)
    (photos existingPaths : List String) : List String × List String × Blobs :=
  if photos = [] then
    ([], [], deleteStoragePaths fails blobs (existingPaths.filter (fun p => !(p = "" : Bool))))
  else
    let r := photosLoop fails pathGen urlOf existingPaths 0 blobs photos
    let blobs2 :=
      if r.2.1.length < existingPaths.length then
        deleteStoragePaths fails r.2.2
          ((existingPaths.drop r.2.1.length).filter (fun p => !(p = "" : Bool)))
      else r.2.2
    (r.1, r.2.1, blobs2)

/-- The authenticated path of `saveLog`: upsert a log, reconciling the photo
blobs through `processLogPhotos`.  `nowId` stands for `Date.now().toString()`,
used when the log has no id yet. -/
def saveLogAuth (fails : String → Bool) (pathGen : Nat → String)
    (urlOf : String → String) (nowId : String) (st : CloudState) (log : DiveLog)
    (u : String) : CloudState :=
  let logId := if log.id = "" then nowId else log.id
  let existing := findDoc (st.userLogs u) logId
  let existingPaths :=
    match existing with
    | some d =>
      match d.photoStoragePaths with
      | some ps => ps
      | none => log.photoStoragePaths.getD []
    | none => log.photoStoragePaths.getD []
  let r := processLogPhotos fails pathGen urlOf st.blobs log.photos existingPaths
  let payload := diveLogToStored
    { log with id := logId, photos := r.1, photoStoragePaths := some r.2.1 }
  { st with
    blobs := r.2.2,
    userLogs := fun v => if v = u then setDocIn (st.userLogs u) logId payload else st.userLogs v }

/-- Embeds `saveLog`: throws unless a truthy user id is given, then runs
`saveLogAuth`. -/
def saveLog (fails : String → Bool) (pathGen : Nat → String)
    (urlOf : String → String) (nowId : String) (st : CloudState) (log : DiveLog)
    (userId : Option String) : Except String CloudState :=
  match userId with
  | none => Except.error "User not authenticated"
  | some u =>
    if u = "" then Except.error "User not authenticated"
    else Except.ok (saveLogAuth fails pathGen urlOf nowId st log u)

/-- Embeds the mapping of `getCustomBadges`: map each stored custom badge to a `Badge` whose
condition is constantly `true` and whose category defaults to `marine`. -/
def storedBadgeToBadge (d : StoredBadge) : Badge :=
  ⟨d.id, d.name, d.description, d.icon, d.storagePath, d.unlockedAt,
    some (d.category.getD BadgeCategory.marine), fun _ => true⟩

/-- Embeds `getUnlockedBadges`: the catalog badges whose condition holds on `logs`,
stamped with an unlock time (`now` stands for `new Date().toISOString()`),
followed by the user's custom badges (none when no user id is given).
`customs` is the user's stored custom-badge collection. -/
def getUnlockedBadges (now : String) (logs : List DiveLog)
    (userId : Option String) (customs : List StoredBadge) : List Badge :=
  (AVAILABLE_BADGES.filter (fun b => b.condition logs)).map
    (fun b => { b with unlockedAt := some now })
  ++ (match userId with
      | some u => if u = "" then [] else customs.map storedBadgeToBadge
      | none => [])

/-! ## Concrete sample values used by witnesses and counterexamples -/

/-- A concrete dive log. -/
def sampleLog : DiveLog :=
  ⟨"1", "2024-01-01", "Jeju", none, "Reef", 1, "09:00", "09:45", 45, 18,
   none, 200, 60, 10, 24, 5, 4, DiveType.funDive, "", "", [], [], some [], 5⟩

/-- A second concrete dive log. -/
def sampleLog2 : DiveLog :=
  { sampleLog with id := "2", diveNumber := 2 }

/-- A concrete stored dive-log document referencing one photo blob. -/
def sampleStoredLog : StoredDiveLog :=
  ⟨"1", "2024-01-01", "Jeju", none, "Reef", 1, "09:00", "09:45", 45, 18,
   none, 200, 60, 10, 24, 5, 4, DiveType.funDive, "", "",
   some [], some ["https://cdn/photo1"], some ["logs/u1/1/a.png"], 5⟩

/-- A concrete stored custom badge. -/
def sampleStoredBadge : StoredBadge :=
  ⟨"custom-1", "My badge", "hand made", "https://cdn/icon", some "badges/u1/custom-1.png",
   some "2024-01-01", none⟩

/-- The empty reservation store. -/
def emptyNameStore : NameStore := fun _ => none

/-- A reservation store holding the key `"bob"` for the empty-string uid. -/
def emptyUidStore : NameStore :=
  fun k => if k = "bob" then some ⟨"", "bob", "bob", 0⟩ else none

/-- A concrete cloud state: one user, one log with one photo blob, one
custom badge, and a bucket containing every path. -/
def sampleCloudState : CloudState :=
  ⟨fun u => if u = "u1" then [("1", sampleStoredLog)] else [],
   fun u => if u = "u1" then [("custom-1", sampleStoredBadge)] else [],
   fun _ => true⟩

/-! ## Theorems -/

/-- Helper: the transaction's conflict test holds exactly when the document
at the key exists with a truthy `uid` field differing from the requester. -/
theorem reservedByOther_iff (store : NameStore) (n uid : String) :
    reservedByOther store n uid = true
      ↔ ∃ r, store n = some r ∧ r.uid ≠ "" ∧ r.uid ≠ uid := by
  unfold reservedByOther
  cases h : store n <;> simp

/-- C10: with `validateOnly` set, `reserveDisplayName` performs no write and
no delete: it either throws `invalid_display_name` or `display_name_taken`,
or returns `true` with the reservation store unchanged. -/
theorem C10_validateOnly_reads_only (store : NameStore) (now : Nat)
    (uid name : String) (prev : Option String) :
    reserveDisplayName store now uid name ⟨true, prev⟩
        = Except.error "invalid_display_name"
    ∨ reserveDisplayName store now uid name ⟨true, prev⟩
        = Except.error "display_name_taken"
    ∨ reserveDisplayName store now uid name ⟨true, prev⟩
        = Except.ok (true, store) := by
  by_cases h1 : normalizeDisplayName name = ""
  · exact Or.inl (by simp [reserveDisplayName, h1])
  · by_cases h2 : reservedByOther store (normalizeDisplayName name) uid = true
    · exact Or.inr (Or.inl (by simp [reserveDisplayName, h1, h2]))
    · exact Or.inr (Or.inr (by simp [reserveDisplayName, h1, h2]))

/-- C4 counterexample: a reservation record whose `uid` field is the empty
string is treated as absent by the JS truthiness test `existingUid &&
existingUid !== uid`, so a request by the distinct uid `"alice"` succeeds
instead of throwing `display_name_taken`, refuting the claimed "exactly
when the record is held by a different uid". -/
theorem C4_counterexample :
    normalizeDisplayName "bob" = "bob"
    ∧ (emptyUidStore "bob").map Reservation.uid = some ""
    ∧ "" ≠ "alice"
    ∧ (reserveDisplayName emptyUidStore 0 "alice" "bob" ⟨false, none⟩).isOk = true := by
  refine ⟨rfl, rfl, by decide, rfl⟩

/-- C4 (amended): `reserveDisplayName` throws `invalid_display_name` exactly
when normalization is empty, throws `display_name_taken` exactly when the
record at the normalized key exists and is held by a truthy (non-empty) uid
different from the requester, and otherwise returns `true`. -/
theorem C4_error_conditions (store : NameStore) (now : Nat) (uid name : String)
    (opts : ReserveOptions) :
    (reserveDisplayName store now uid name opts = Except.error "invalid_display_name"
      ↔ normalizeDisplayName name = "")
    ∧ (reserveDisplayName store now uid name opts = Except.error "display_name_taken"
      ↔ normalizeDisplayName name ≠ ""
        ∧ ∃ r, store (normalizeDisplayName name) = some r ∧ r.uid ≠ "" ∧ r.uid ≠ uid)
    ∧ ((∃ st', reserveDisplayName store now uid name opts = Except.ok (true, st'))
      ↔ normalizeDisplayName name ≠ ""
        ∧ ¬∃ r, store (normalizeDisplayName name) = some r ∧ r.uid ≠ "" ∧ r.uid ≠ uid) := by
  by_cases h1 : normalizeDisplayName name = ""
  · refine ⟨?_, ?_, ?_⟩ <;> simp [reserveDisplayName, h1]
  · by_cases h2 : reservedByOther store (normalizeDisplayName name) uid = true
    · have h2' := (reservedByOther_iff store _ uid).mp h2
      refine ⟨?_, ?_, ?_⟩ <;>
        by_cases h3 : opts.validateOnly <;>
          simp [reserveDisplayName, h1, h2, h3, h2']
    · have h2' : ¬∃ r, store (normalizeDisplayName name) = some r ∧ r.uid ≠ "" ∧ r.uid ≠ uid :=
        fun hx => h2 ((reservedByOther_iff store _ uid).mpr hx)
      refine ⟨?_, ?_, ?_⟩ <;>
        by_cases h3 : opts.validateOnly <;>
          simp [reserveDisplayName, h1, h2, h3, h2']

/-- Helper: reserving an input whose key is free succeeds, after which a
reservation attempt by a different (non-empty) uid for any input with the
same key throws `display_name_taken`. -/
theorem reserve_then_conflict
    (store : NameStore) (now1 now2 : Nat) (u1 u2 n1 n2 : String)
    (hu1 : u1 ≠ "") (hne : u1 ≠ u2)
    (hkey : normalizeDisplayName n1 = normalizeDisplayName n2)
    (hvalid : normalizeDisplayName n1 ≠ "")
    (hfree : store (normalizeDisplayName n1) = none) :
    ∃ st1, reserveDisplayName store now1 u1 n1 ⟨false, none⟩ = Except.ok (true, st1)
      ∧ reserveDisplayName st1 now2 u2 n2 ⟨false, none⟩
          = Except.error "display_name_taken" := by
  have hvalid2 : normalizeDisplayName n2 ≠ "" := hkey ▸ hvalid
  refine ⟨setReservation store (normalizeDisplayName n1) now1 u1 n1, ?_, ?_⟩
  · simp [reserveDisplayName, hvalid, reservedByOther, hfree, applyReservation]
  · have hlook : setReservation store (normalizeDisplayName n1) now1 u1 n1
        (normalizeDisplayName n2) = some ⟨u1, n1, normalizeDisplayName n1, now1⟩ := by
      simp [setReservation, hkey]
    have hby : reservedByOther
        (setReservation store (normalizeDisplayName n1) now1 u1 n1)
        (normalizeDisplayName n2) u2 = true := by
      rw [reservedByOther, hlook]
      simp [hu1, hne]
    simp [reserveDisplayName, hvalid2, hby]

/-- C2: two reservation attempts for inputs normalizing to the same free
key, by two users (distinct, non-empty uids, as the auth backend issues
them): in each serialisation of the two transactions the first succeeds and
the second throws `display_name_taken` — they never both succeed. -/
theorem C2_concurrent_reservation_exclusive
    (store : NameStore) (now1 now2 : Nat) (u1 u2 n1 n2 : String)
    (hu1 : u1 ≠ "") (hu2 : u2 ≠ "") (hne : u1 ≠ u2)
    (hkey : normalizeDisplayName n1 = normalizeDisplayName n2)
    (hvalid : normalizeDisplayName n1 ≠ "")
    (hfree : store (normalizeDisplayName n1) = none) :
    (∃ st1, reserveDisplayName store now1 u1 n1 ⟨false, none⟩ = Except.ok (true, st1)
      ∧ reserveDisplayName st1 now2 u2 n2 ⟨false, none⟩
          = Except.error "display_name_taken")
    ∧ (∃ st2, reserveDisplayName store now2 u2 n2 ⟨false, none⟩ = Except.ok (true, st2)
      ∧ reserveDisplayName st2 now1 u1 n1 ⟨false, none⟩
          = Except.error "display_name_taken") :=
  ⟨reserve_then_conflict store now1 now2 u1 u2 n1 n2 hu1 hne hkey hvalid hfree,
   reserve_then_conflict store now2 now1 u2 u1 n2 n1 hu2 (fun h => hne h.symm)
     hkey.symm (hkey ▸ hvalid) (hkey ▸ hfree)⟩

/-- C2 witness: two concrete users racing for `"Ocean Explorer"` /
`"ocean explorer"` on the empty store. -/
theorem C2_witness :
    (∃ st1, reserveDisplayName emptyNameStore 1 "uidA" "Ocean Explorer" ⟨false, none⟩
          = Except.ok (true, st1)
      ∧ reserveDisplayName st1 2 "uidB" "ocean explorer" ⟨false, none⟩
          = Except.error "display_name_taken")
    ∧ (∃ st2, reserveDisplayName emptyNameStore 2 "uidB" "ocean explorer" ⟨false, none⟩
          = Except.ok (true, st2)
      ∧ reserveDisplayName st2 1 "uidA" "Ocean Explorer" ⟨false, none⟩
          = Except.error "display_name_taken") :=
  C2_concurrent_reservation_exclusive emptyNameStore 1 2 "uidA" "uidB"
    "Ocean Explorer" "ocean explorer" (by decide) (by decide) (by decide)
    (by rfl) (by decide) (by rfl)

/-- C5: after a user successfully re-reserves a different name `b` with
`previousDisplayName` set to the previously reserved `a` (the two
normalizing to different keys), the record at `a`'s key is deleted and the
record at `b`'s key belongs to the user. -/
theorem C5_rename_moves_reservation
    (store0 st1 st2 : NameStore) (now1 now2 : Nat) (u a b : String)
    (p0 : Option String)
    (h1 : reserveDisplayName store0 now1 u a ⟨false, p0⟩ = Except.ok (true, st1))
    (h2 : reserveDisplayName st1 now2 u b ⟨false, some a⟩ = Except.ok (true, st2))
    (hab : normalizeDisplayName a ≠ normalizeDisplayName b) :
    st2 (normalizeDisplayName a) = none
    ∧ (st2 (normalizeDisplayName b)).map Reservation.uid = some u := by
  have ha : normalizeDisplayName a ≠ "" := by
    intro contra
    simp [reserveDisplayName, contra] at h1
  have hastr : a ≠ "" := by
    intro contra
    exact ha (by simp [contra]; rfl)
  have hb : normalizeDisplayName b ≠ "" := by
    intro contra
    simp [reserveDisplayName, contra] at h2
  have hby : ¬ reservedByOther st1 (normalizeDisplayName b) u = true := by
    intro contra
    simp [reserveDisplayName, hb, contra] at h2
  have hst2 : st2 = applyReservation st1 (normalizeDisplayName b) now2 u b (some a) := by
    simp [reserveDisplayName, hb, hby] at h2
    exact h2.symm
  subst hst2
  constructor
  · simp [applyReservation, hastr, ha, hab, setReservation]
  · simp [applyReservation, hastr, ha, hab, setReservation]
    exact ⟨_, ⟨fun contra => hab contra.symm, rfl⟩, rfl⟩

/-- C5 witness: the user `"u1"` renames from `"Alpha"` to `"Beta"` starting
from the empty store. -/
theorem C5_witness :
    ∃ st1 st2,
      reserveDisplayName emptyNameStore 1 "u1" "Alpha" ⟨false, none⟩
          = Except.ok (true, st1)
      ∧ reserveDisplayName st1 2 "u1" "Beta" ⟨false, some "Alpha"⟩
          = Except.ok (true, st2)
      ∧ st2 (normalizeDisplayName "Alpha") = none
      ∧ (st2 (normalizeDisplayName "Beta")).map Reservation.uid = some "u1" := by
  refine ⟨setReservation emptyNameStore "alpha" 1 "u1" "Alpha", _, rfl, rfl, ?_, ?_⟩
  · exact (C5_rename_moves_reservation emptyNameStore _ _ 1 2 "u1" "Alpha" "Beta"
      none rfl rfl (by decide)).1
  · exact (C5_rename_moves_reservation emptyNameStore _ _ 1 2 "u1" "Alpha" "Beta"
      none rfl rfl (by decide)).2

/-- Helper: a duplicate-free list contained in another is at most as long. -/
theorem length_le_of_nodup_subset {α : Type} [DecidableEq α] {L L' : List α}
    (hnd : L.Nodup) (hsub : L ⊆ L') : L.length ≤ L'.length := by
  calc L.length = L.toFinset.card := (List.toFinset_card_of_nodup hnd).symm
    _ ≤ L'.toFinset.card := Finset.card_le_card (fun x hx => by
        rw [List.mem_toFinset] at *
        exact hsub hx)
    _ ≤ L'.length := List.toFinset_card_le L'

/-- Helper: the number of distinct values of a list grows with inclusion. -/
theorem toFinset_card_mono_of_subset {α : Type} [DecidableEq α] {L L' : List α}
    (hsub : L ⊆ L') : L.toFinset.card ≤ L'.toFinset.card :=
  Finset.card_le_card (fun x hx => by
    rw [List.mem_toFinset] at *
    exact hsub hx)

/-- C1 counterexample: with "superset" read as plain entry membership
(`L' contains every entry of L`), the claim fails: the four-element list
made of four copies of one log unlocks `first-step` (four or more logs),
its member-wise superset `[sampleLog]` does not. -/
theorem C1_counterexample :
    (∀ x ∈ List.replicate 4 sampleLog, x ∈ [sampleLog])
    ∧ firstStepBadge ∈ AVAILABLE_BADGES
    ∧ firstStepBadge.condition (List.replicate 4 sampleLog) = true
    ∧ firstStepBadge.condition [sampleLog] = false := by
  refine ⟨?_, ?_, rfl, rfl⟩
  · intro x hx
    rw [List.eq_of_mem_replicate hx]
    exact List.mem_singleton.mpr rfl
  · simp [AVAILABLE_BADGES]

/-- C1 (amended): for a duplicate-free log list `L` (counting entries with
multiplicity), every catalog badge unlocked for `L` stays unlocked for any
`L'` containing every entry of `L`: all 15 predicates are monotonic. -/
theorem C1_badge_monotonicity
    (L L' : List DiveLog) (hnd : L.Nodup) (hsub : L ⊆ L')
    (b : Badge) (hb : b ∈ AVAILABLE_BADGES) (hcond : b.condition L = true) :
    b.condition L' = true := by
  have hlen : L.length ≤ L'.length := length_le_of_nodup_subset hnd hsub
  have hflen : ∀ p : DiveLog → Bool,
      (L.filter p).length ≤ (L'.filter p).length := fun p =>
    length_le_of_nodup_subset (hnd.filter p) (List.filter_subset p hsub)
  have hany : ∀ p : DiveLog → Bool, L.any p = true → L'.any p = true := by
    intro p hp
    rw [List.any_eq_true] at hp ⊢
    obtain ⟨x, hx, hpx⟩ := hp
    exact ⟨x, hsub hx, hpx⟩
  have hmap : ∀ f : DiveLog → String,
      (L.map f).toFinset.card ≤ (L'.map f).toFinset.card := by
    intro f
    refine toFinset_card_mono_of_subset (fun x hx => ?_)
    rw [List.mem_map] at hx ⊢
    obtain ⟨a, ha, rfl⟩ := hx
    exact ⟨a, hsub ha, rfl⟩
  have hflat :
      (L.flatMap (fun l => l.marineLifeSightings.map (·.name))).toFinset.card
        ≤ (L'.flatMap (fun l => l.marineLifeSightings.map (·.name))).toFinset.card := by
    refine toFinset_card_mono_of_subset (fun x hx => ?_)
    rw [List.mem_flatMap] at hx ⊢
    obtain ⟨a, ha, hxa⟩ := hx
    exact ⟨a, hsub ha, hxa⟩
  simp only [AVAILABLE_BADGES, List.mem_cons, List.not_mem_nil, or_false] at hb
  rcases hb with rfl | rfl | rfl | rfl | rfl | rfl | rfl | rfl | rfl | rfl | rfl
    | rfl | rfl | rfl | rfl
  · simp only [firstSplashBadge, decide_eq_true_eq] at hcond ⊢
    omega
  · simp only [firstStepBadge, decide_eq_true_eq] at hcond ⊢
    omega
  · simp only [advDiverBadge, decide_eq_true_eq] at hcond ⊢
    omega
  · simp only [veteranDiverBadge, decide_eq_true_eq] at hcond ⊢
    omega
  · simp only [centuryDiverBadge, decide_eq_true_eq] at hcond ⊢
    omega
  · exact hany _ hcond
  · simp only [nightOwlBadge, decide_eq_true_eq] at hcond ⊢
    exact le_trans hcond (hflen _)
  · simp only [marineBiologistBadge, decide_eq_true_eq] at hcond ⊢
    exact le_trans hcond hflat
  · simp only [shutterbugBadge, decide_eq_true_eq] at hcond ⊢
    exact le_trans hcond (hflen _)
  · simp only [globeTrotterBadge, decide_eq_true_eq] at hcond ⊢
    exact le_trans hcond (hmap _)
  · exact hany _ hcond
  · simp only [tropicalDiverBadge, decide_eq_true_eq] at hcond ⊢
    exact le_trans hcond (hflen _)
  · exact hany _ hcond
  · exact hany _ hcond
  · simp only [safetyFirstBadge, decide_eq_true_eq] at hcond ⊢
    exact le_trans hcond (hflen _)

/-- C1 witness: `first-splash` unlocked for `[sampleLog]` stays unlocked
for the longer list `[sampleLog, sampleLog2]`. -/
theorem C1_witness :
    firstSplashBadge.condition [sampleLog, sampleLog2] = true :=
  C1_badge_monotonicity [sampleLog] [sampleLog, sampleLog2] (by decide)
    (by intro x hx; simp at hx; simp [hx])
    firstSplashBadge (by simp [AVAILABLE_BADGES]) rfl

/-- C6 counterexample: a user with zero dive logs but one stored custom
badge gets a non-empty unlocked set from `getUnlockedBadges` (custom badges
are always unlocked once created), refuting "empty for every user with
zero logs". -/
theorem C6_counterexample :
    (getUnlockedBadges "now" [] (some "u1") [sampleStoredBadge]).length = 1
    ∧ getUnlockedBadges "now" [] (some "u1") [sampleStoredBadge] ≠ [] := by
  refine ⟨rfl, fun h => ?_⟩
  have h1 : (getUnlockedBadges "now" [] (some "u1") [sampleStoredBadge]).length = 0 := by
    rw [h]
    rfl
  exact absurd h1 (by decide)

/-- C6 (amended): for a user with no stored custom badges, zero logs yield
zero unlocked badges, and with exactly one log the count-1 badge
`first-splash` is unlocked while the count-4 badge `first-step` is not. -/
theorem C6_zero_and_one_log :
    (∀ (now : String) (userId : Option String),
      getUnlockedBadges now [] userId [] = [])
    ∧ ∀ (now : String) (userId : Option String) (l : DiveLog),
      ((getUnlockedBadges now [l] userId []).any (fun b => b.id = "first-splash")) = true
      ∧ ((getUnlockedBadges now [l] userId []).any (fun b => b.id = "first-step")) = false := by
  have hstd : AVAILABLE_BADGES.filter (fun b => b.condition ([] : List DiveLog)) = [] := rfl
  constructor
  · intro now userId
    cases userId with
    | none => rfl
    | some u =>
      by_cases hu : u = "" <;> simp [getUnlockedBadges, hstd, hu]
  · intro now userId l
    constructor
    · rw [List.any_eq_true]
      refine ⟨{ firstSplashBadge with unlockedAt := some now },
        List.mem_append_left _ (List.mem_map.mpr ⟨firstSplashBadge,
          List.mem_filter.mpr ⟨by simp [AVAILABLE_BADGES], rfl⟩, rfl⟩), ?_⟩
      simp [firstSplashBadge]
    · rw [← Bool.not_eq_true, List.any_eq_true]
      rintro ⟨b, hb, hid⟩
      rcases List.mem_append.mp hb with hstd | hcust
      · obtain ⟨a, haf, rfl⟩ := List.mem_map.mp hstd
        obtain ⟨hmem, hcond⟩ := List.mem_filter.mp haf
        simp only [AVAILABLE_BADGES, List.mem_cons, List.not_mem_nil, or_false] at hmem
        rcases hmem with rfl | rfl | rfl | rfl | rfl | rfl | rfl | rfl | rfl | rfl
          | rfl | rfl | rfl | rfl | rfl <;>
          simp_all [firstSplashBadge, firstStepBadge, advDiverBadge,
            veteranDiverBadge, centuryDiverBadge, deepDiverBadge, nightOwlBadge,
            marineBiologistBadge, shutterbugBadge, globeTrotterBadge,
            coldBloodedBadge, tropicalDiverBadge, longBreathBadge,
            earlyBirdBadge, safetyFirstBadge]
      · cases userId with
        | none => simp at hcust
        | some u =>
          by_cases hu : u = "" <;> simp [hu] at hcust

/-- Helper: blob deletion never makes a blob reappear. -/
theorem deleteStoragePath_preserves_absent (fails : String → Bool) (b : Blobs)
    (path p : String) (h : b p = false) :
    deleteStoragePath fails b path p = false := by
  by_cases h1 : path = ""
  · simpa [deleteStoragePath, h1] using h
  · by_cases h2 : fails path = true
    · simpa [deleteStoragePath, deleteObject, h1, h2] using h
    · simp only [deleteStoragePath, deleteObject, h1, h2, if_neg, if_false,
        Bool.not_eq_true] at *
      split_ifs <;> simp [h]

/-- Helper: a successful `deleteStoragePath` on a truthy path removes it. -/
theorem deleteStoragePath_deletes (fails : String → Bool) (b : Blobs)
    (path : String) (hf : fails path = false) (hp : path ≠ "") :
    deleteStoragePath fails b path path = false := by
  simp [deleteStoragePath, deleteObject, hp, hf]

/-- Helper: folding deletions over a path list preserves absence. -/
theorem deleteStoragePaths_preserves_absent (fails : String → Bool)
    (paths : List String) (b : Blobs) (p : String) (h : b p = false) :
    deleteStoragePaths fails b paths p = false := by
  induction paths generalizing b with
  | nil => exact h
  | cons q rest ih =>
    exact ih _ (deleteStoragePath_preserves_absent fails b q p h)

/-- Helper: folding deletions over a path list removes every truthy member
whose underlying deletion succeeds. -/
theorem deleteStoragePaths_deletes (fails : String → Bool) (paths : List String)
    (b : Blobs) (p : String) (hp : p ∈ paths) (hf : fails p = false)
    (hne : p ≠ "") :
    deleteStoragePaths fails b paths p = false := by
  induction paths generalizing b with
  | nil => cases hp
  | cons q rest ih =>
    rcases List.mem_cons.mp hp with rfl | hmem
    · exact deleteStoragePaths_preserves_absent fails rest _ p
        (deleteStoragePath_deletes fails b p hf hne)
    · exact ih _ hmem

/-- C7: deleting an existing dive log removes the record and (when the
underlying storage deletions succeed) every truthy path of its
`photoStoragePaths` from the bucket. -/
theorem C7_deleteLog_removes_record_and_blobs
    (fails : String → Bool) (st : CloudState) (u id : String)
    (d : StoredDiveLog) (ps : List String) (hu : u ≠ "")
    (hdoc : findDoc (st.userLogs u) id = some d)
    (hps : d.photoStoragePaths = some ps)
    (hok : ∀ p ∈ ps, fails p = false) :
    ∃ st', deleteLog fails st id (some u) = Except.ok st'
      ∧ findDoc (st'.userLogs u) id = none
      ∧ ∀ p ∈ ps, p ≠ "" → st'.blobs p = false := by
  refine ⟨deleteLogAuth fails st id u, by simp [deleteLog, hu], ?_, ?_⟩
  · show findDoc ((deleteLogAuth fails st id u).userLogs u) id = none
    simp [deleteLogAuth, findDoc, removeDoc, List.find?_eq_none, List.mem_filter]
  · intro p hp hne
    show (deleteLogAuth fails st id u).blobs p = false
    simp only [deleteLogAuth, hdoc, hps]
    exact deleteStoragePaths_deletes fails _ st.blobs p
      (List.mem_filter.mpr ⟨hp, by simp [hne]⟩) (hok p hp) hne

/-- C7 witness: deleting the sample user's log `"1"` removes the record and
its photo blob. -/
theorem C7_witness :
    ∃ st', deleteLog (fun _ => false) sampleCloudState "1" (some "u1") = Except.ok st'
      ∧ findDoc (st'.userLogs "u1") "1" = none
      ∧ ∀ p ∈ ["logs/u1/1/a.png"], p ≠ "" → st'.blobs p = false :=
  C7_deleteLog_removes_record_and_blobs (fun _ => false) sampleCloudState
    "u1" "1" sampleStoredLog ["logs/u1/1/a.png"] (by decide) rfl rfl
    (fun _ _ => rfl)

/-- C8: the underlying blob deletion can fail, but `deleteStoragePath`
catches the failure and leaves the bucket as it was; consequently the
enclosing primary operations `deleteLog`, `deleteCustomBadge` and `saveLog`
always succeed for an authenticated user, whatever deletions fail. -/
theorem C8_cleanup_failures_swallowed :
    (∀ (fails : String → Bool) (blobs : Blobs) (path : String),
      path ≠ "" → fails path = true →
        deleteObject fails blobs path = Except.error "storage_error"
        ∧ deleteStoragePath fails blobs path = blobs)
    ∧ (∀ (fails : String → Bool) (st : CloudState) (id u : String), u ≠ "" →
        (deleteLog fails st id (some u)).isOk = true)
    ∧ (∀ (fails : String → Bool) (st : CloudState) (badgeId u : String), u ≠ "" →
        (deleteCustomBadge fails st badgeId (some u)).isOk = true)
    ∧ (∀ (fails : String → Bool) (pathGen : Nat → String) (urlOf : String → String)
        (nowId : String) (st : CloudState) (log : DiveLog) (u : String), u ≠ "" →
        (saveLog fails pathGen urlOf nowId st log (some u)).isOk = true) := by
  refine ⟨fun fails blobs path h1 h2 => ⟨?_, ?_⟩,
    fun fails st id u hu => ?_, fun fails st badgeId u hu => ?_,
    fun fails pathGen urlOf nowId st log u hu => ?_⟩
  · simp [deleteObject, h2]
  · simp [deleteStoragePath, deleteObject, h1, h2]
  · simp [deleteLog, hu, Except.isOk, Except.toBool]
  · simp [deleteCustomBadge, hu, Except.isOk, Except.toBool]
  · simp [saveLog, hu, Except.isOk, Except.toBool]

/-- C8 witness: a failing deletion of the concrete path `"x"` errors inside
`deleteObject` but `deleteStoragePath` swallows it. -/
theorem C8_witness :
    (deleteObject (fun _ => true) (fun _ => true) "x" = Except.error "storage_error"
      ∧ deleteStoragePath (fun _ => true) (fun _ => true) "x" = (fun _ => true))
    ∧ (deleteLog (fun _ => true) sampleCloudState "1" (some "u1")).isOk = true
    ∧ (deleteCustomBadge (fun _ => true) sampleCloudState "custom-1" (some "u1")).isOk = true
    ∧ (saveLog (fun _ => true) (fun _ => "p") (fun _ => "url") "9" sampleCloudState
        sampleLog (some "u1")).isOk = true :=
  ⟨C8_cleanup_failures_swallowed.1 (fun _ => true) (fun _ => true) "x" (by decide) rfl,
   C8_cleanup_failures_swallowed.2.1 (fun _ => true) sampleCloudState "1" "u1" (by decide),
   C8_cleanup_failures_swallowed.2.2.1 (fun _ => true) sampleCloudState "custom-1" "u1"
     (by decide),
   C8_cleanup_failures_swallowed.2.2.2 (fun _ => true) (fun _ => "p") (fun _ => "url")
     "9" sampleCloudState sampleLog "u1" (by decide)⟩

/-- C9: `getLogs` returns `[]` for a missing user id, and otherwise exactly
the user's stored logs (as a permutation of the normalised documents)
sorted by `diveNumber` in descending order. -/
theorem C9_getLogs_sorted_desc (st : CloudState) :
    getLogs st none = []
    ∧ ∀ u : String, u ≠ "" →
      List.Sorted (fun a b : DiveLog => b.diveNumber ≤ a.diveNumber)
        (getLogs st (some u))
      ∧ (getLogs st (some u)).Perm
          (((st.userLogs u).map Prod.snd).map storedToDiveLog) := by
  refine ⟨rfl, fun u hu => ⟨?_, ?_⟩⟩
  · have hs := List.sorted_insertionSort byDiveNumberDesc
      ((st.userLogs u).map Prod.snd)
    rw [getLogs, if_neg hu, List.Sorted, List.pairwise_map]
    exact hs.imp (fun hab => hab)
  · rw [getLogs, if_neg hu]
    exact (List.perm_insertionSort byDiveNumberDesc _).map storedToDiveLog

/-- C9 witness: the sample user's collection is returned sorted and
complete. -/
theorem C9_witness :
    List.Sorted (fun a b : DiveLog => b.diveNumber ≤ a.diveNumber)
      (getLogs sampleCloudState (some "u1"))
    ∧ (getLogs sampleCloudState (some "u1")).Perm
        (((sampleCloudState.userLogs "u1").map Prod.snd).map storedToDiveLog) :=
  (C9_getLogs_sorted_desc sampleCloudState).2 "u1" (by decide)

/-- Helper: `Char.ofNat` round-trips on valid code points. -/
theorem charOfNat_toNat (n : Nat) (hv : n.isValidChar) : (Char.ofNat n).toNat = n := by
  simp [Char.ofNat, hv, Char.ofNatAux, Char.toNat, UInt32.toNat, BitVec.toNat_ofNatLt]

/-- Helper: code point of the lower-cased image of an upper-case letter. -/
theorem charOfNat_toNat_plus32 (c : Char) (h : 65 ≤ c.toNat ∧ c.toNat ≤ 90) :
    (Char.ofNat (c.toNat + 32)).toNat = c.toNat + 32 :=
  charOfNat_toNat _ (Or.inl (by omega))

/-- Helper: `jsToLower` never returns an ASCII upper-case letter. -/
theorem jsToLower_not_upper (c : Char) :
    ¬(65 ≤ (jsToLower c).toNat ∧ (jsToLower c).toNat ≤ 90) := by
  unfold jsToLower
  split_ifs with h
  · rw [charOfNat_toNat_plus32 c h]
    omega
  · exact h

/-- Helper: `jsToLower` is idempotent. -/
theorem jsToLower_idem (c : Char) : jsToLower (jsToLower c) = jsToLower c := by
  have h := jsToLower_not_upper c
  conv_lhs => rw [jsToLower]
  rw [if_neg h]

/-- Helper: characters with code point 65 or above are not JS whitespace. -/
theorem notWs_of_ge65 (d : Char) (h : 65 ≤ d.toNat) : jsWhitespace d = false := by
  simp only [jsWhitespace, Bool.or_eq_false_iff, decide_eq_false_iff_not]
  refine ⟨⟨⟨⟨⟨?_, ?_⟩, ?_⟩, ?_⟩, ?_⟩, ?_⟩ <;>
    (intro e; subst e; exact absurd h (by decide))

/-- Helper: lower-casing preserves JS-whitespace-ness. -/
theorem jsWhitespace_jsToLower (c : Char) :
    jsWhitespace (jsToLower c) = jsWhitespace c := by
  unfold jsToLower
  split_ifs with h
  · rw [notWs_of_ge65 _ (le_trans (by omega) (charOfNat_toNat_plus32 c h).ge),
      notWs_of_ge65 _ h.1]
  · rfl

/-- Step equation: a whitespace character while already inside a run. -/
theorem collapseWsAux_cons_ws_true (d : Char) (rest : List Char)
    (hd : jsWhitespace d = true) :
    collapseWsAux true (d :: rest) = collapseWsAux true rest := by
  simp [collapseWsAux, hd]

/-- Step equation: a whitespace character opening a run. -/
theorem collapseWsAux_cons_ws_false (d : Char) (rest : List Char)
    (hd : jsWhitespace d = true) :
    collapseWsAux false (d :: rest) = ' ' :: collapseWsAux true rest := by
  simp [collapseWsAux, hd]

/-- Step equation: a non-whitespace character. -/
theorem collapseWsAux_cons_not_ws (flag : Bool) (d : Char) (rest : List Char)
    (hd : jsWhitespace d = false) :
    collapseWsAux flag (d :: rest) = d :: collapseWsAux false rest := by
  cases flag <;> simp [collapseWsAux, hd]

/-- Helper: every whitespace character in the output of the collapse pass
is the replacement space. -/
theorem collapseWsAux_mem_space (l : List Char) :
    ∀ (flag : Bool) (c : Char), c ∈ collapseWsAux flag l →
      jsWhitespace c = true → c = ' ' := by
  induction l with
  | nil =>
    intro flag c hc _
    simp [collapseWsAux] at hc
  | cons d rest ih =>
    intro flag c hc hws
    by_cases hd : jsWhitespace d = true
    · cases flag with
      | true =>
        rw [collapseWsAux_cons_ws_true d rest hd] at hc
        exact ih true c hc hws
      | false =>
        rw [collapseWsAux_cons_ws_false d rest hd] at hc
        rcases List.mem_cons.mp hc with rfl | hmem
        · rfl
        · exact ih true c hmem hws
    · rw [collapseWsAux_cons_not_ws flag d rest (by simpa using hd)] at hc
      rcases List.mem_cons.mp hc with rfl | hmem
      · exact absurd hws hd
      · exact ih false c hmem hws

/-- Helper: every character in the output of the collapse pass is the
replacement space or a character of the input. -/
theorem collapseWsAux_mem (l : List Char) :
    ∀ (flag : Bool) (c : Char), c ∈ collapseWsAux flag l → c = ' ' ∨ c ∈ l := by
  induction l with
  | nil =>
    intro flag c hc
    simp [collapseWsAux] at hc
  | cons d rest ih =>
    intro flag c hc
    by_cases hd : jsWhitespace d = true
    · cases flag with
      | true =>
        rw [collapseWsAux_cons_ws_true d rest hd] at hc
        rcases ih true c hc with h | h
        · exact Or.inl h
        · exact Or.inr (List.mem_cons_of_mem d h)
      | false =>
        rw [collapseWsAux_cons_ws_false d rest hd] at hc
        rcases List.mem_cons.mp hc with rfl | hmem
        · exact Or.inl rfl
        · rcases ih true c hmem with h | h
          · exact Or.inl h
          · exact Or.inr (List.mem_cons_of_mem d h)
    · rw [collapseWsAux_cons_not_ws flag d rest (by simpa using hd)] at hc
      rcases List.mem_cons.mp hc with rfl | hmem
      · exact Or.inr (List.mem_cons_self c rest)
      · rcases ih false c hmem with h | h
        · exact Or.inl h
        · exact Or.inr (List.mem_cons_of_mem d h)

/-- Helper: in run-skipping mode the collapse output starts with a
non-whitespace character when it is non-empty. -/
theorem collapseWsAux_true_head (l : List Char) :
    (collapseWsAux true l).head?.all (fun c => !jsWhitespace c) = true := by
  induction l with
  | nil => rfl
  | cons d rest ih =>
    by_cases hd : jsWhitespace d = true
    · rw [collapseWsAux_cons_ws_true d rest hd]
      exact ih
    · rw [collapseWsAux_cons_not_ws true d rest (by simpa using hd)]
      simp [hd]

/-- Helper: the collapse output never contains two adjacent whitespace
characters. -/
theorem collapseWsAux_chain (l : List Char) :
    ∀ flag : Bool, List.Chain'
      (fun a b => ¬(jsWhitespace a = true ∧ jsWhitespace b = true))
      (collapseWsAux flag l) := by
  induction l with
  | nil =>
    intro flag
    simp [collapseWsAux]
  | cons d rest ih =>
    intro flag
    by_cases hd : jsWhitespace d = true
    · cases flag with
      | true =>
        rw [collapseWsAux_cons_ws_true d rest hd]
        exact ih true
      | false =>
        rw [collapseWsAux_cons_ws_false d rest hd, List.chain'_cons']
        refine ⟨?_, ih true⟩
        intro y hy
        have hh := collapseWsAux_true_head rest
        cases hhead : (collapseWsAux true rest).head? with
        | none =>
          rw [hhead] at hy
          cases hy
        | some z =>
          rw [hhead] at hy hh
          rw [Option.mem_def, Option.some.injEq] at hy
          subst hy
          rw [Option.all_some] at hh
          rintro ⟨-, hwy⟩
          rw [hwy] at hh
          cases hh
    · rw [collapseWsAux_cons_not_ws flag d rest (by simpa using hd), List.chain'_cons']
      exact ⟨fun y _ hcontra => hd hcontra.1, ih false⟩

/-- Helper: the collapse output is empty only when every input character is
whitespace. -/
theorem collapseWsAux_nil (l : List Char) :
    ∀ flag : Bool, collapseWsAux flag l = [] →
      ∀ c ∈ l, jsWhitespace c = true := by
  induction l with
  | nil =>
    intro flag _ c hc
    cases hc
  | cons d rest ih =>
    intro flag hnil c hc
    by_cases hd : jsWhitespace d = true
    · cases flag with
      | true =>
        rw [collapseWsAux_cons_ws_true d rest hd] at hnil
        rcases List.mem_cons.mp hc with rfl | hmem
        · exact hd
        · exact ih true hnil c hmem
      | false =>
        rw [collapseWsAux_cons_ws_false d rest hd] at hnil
        cases hnil
    · rw [collapseWsAux_cons_not_ws flag d rest (by simpa using hd)] at hnil
      cases hnil

/-- Helper: in emit mode the collapse output of a non-empty list is
non-empty. -/
theorem collapseWsAux_false_ne_nil (d : Char) (rest : List Char) :
    collapseWsAux false (d :: rest) ≠ [] := by
  by_cases hd : jsWhitespace d = true
  · rw [collapseWsAux_cons_ws_false d rest hd]
    simp
  · rw [collapseWsAux_cons_not_ws false d rest (by simpa using hd)]
    simp

/-- Helper: the collapse pass preserves a non-whitespace last character. -/
theorem collapseWsAux_last (l : List Char) :
    ∀ flag : Bool, l.getLast?.all (fun c => !jsWhitespace c) = true →
      (collapseWsAux flag l).getLast?.all (fun c => !jsWhitespace c) = true := by
  induction l with
  | nil =>
    intro flag _
    rfl
  | cons d rest ih =>
    intro flag hl
    cases rest with
    | nil =>
      have hd : jsWhitespace d = false := by
        simpa [List.getLast?_singleton] using hl
      rw [collapseWsAux_cons_not_ws flag d [] hd]
      simpa [collapseWsAux] using hl
    | cons e rest' =>
      have hl' : (e :: rest').getLast?.all (fun c => !jsWhitespace c) = true := by
        rwa [List.getLast?_cons_cons] at hl
      have hlastne : collapseWsAux true (e :: rest') = [] → False := by
        intro hnil
        have hall := collapseWsAux_nil (e :: rest') true hnil
        obtain ⟨x, hx⟩ : ∃ x, (e :: rest').getLast? = some x := by
          cases hgl : (e :: rest').getLast? with
          | none => exact absurd (List.getLast?_eq_none_iff.mp hgl) (by simp)
          | some x => exact ⟨x, rfl⟩
        have hmem : x ∈ e :: rest' := by
          obtain ⟨ys, hys⟩ := List.getLast?_eq_some_iff.mp hx
          rw [hys]
          simp
        rw [hx, Option.all_some] at hl'
        rw [hall x hmem] at hl'
        cases hl'
      by_cases hd : jsWhitespace d = true
      · cases flag with
        | true =>
          rw [collapseWsAux_cons_ws_true d (e :: rest') hd]
          exact ih true hl'
        | false =>
          rw [collapseWsAux_cons_ws_false d (e :: rest') hd]
          have hcons : (' ' :: collapseWsAux true (e :: rest')).getLast?
              = (collapseWsAux true (e :: rest')).getLast? := by
            cases hsplit : collapseWsAux true (e :: rest') with
            | nil => exact absurd hsplit hlastne
            | cons a t => rw [List.getLast?_cons_cons]
          rw [hcons]
          exact ih true hl'
      · rw [collapseWsAux_cons_not_ws flag d (e :: rest') (by simpa using hd)]
        have hcons : (d :: collapseWsAux false (e :: rest')).getLast?
            = (collapseWsAux false (e :: rest')).getLast? := by
          cases hsplit : collapseWsAux false (e :: rest') with
          | nil => exact absurd hsplit (collapseWsAux_false_ne_nil e rest')
          | cons a t => rw [List.getLast?_cons_cons]
        rw [hcons]
        exact ih false hl'

/-- Helper: the collapse pass preserves a non-whitespace first character. -/
theorem collapseWsAux_false_head (l : List Char)
    (h : l.head?.all (fun c => !jsWhitespace c) = true) :
    (collapseWsAux false l).head?.all (fun c => !jsWhitespace c) = true := by
  cases l with
  | nil => rfl
  | cons d rest =>
    have hd : jsWhitespace d = false := by simpa using h
    simp [collapseWsAux, hd]

/-- Helper: the first character surviving `dropWhile p` fails `p`. -/
theorem head_dropWhile_all (p : Char → Bool) (l : List Char) :
    (l.dropWhile p).head?.all (fun c => !p c) = true := by
  cases h : l.dropWhile p with
  | nil => rfl
  | cons a t =>
    have hw := List.head_dropWhile_not p l (by simp [h])
    simp only [h, List.head_cons] at hw
    simp [h, hw]

/-- Helper: stripping trailing whitespace keeps the first character (or
empties the list). -/
theorem head_trimRight (u : List Char) :
    trimRight u = [] ∨ (trimRight u).head? = u.head? := by
  cases u with
  | nil => exact Or.inl rfl
  | cons d v =>
    unfold trimRight
    rw [show (d :: v).reverse = v.reverse ++ [d] from by simp,
      List.dropWhile_append]
    by_cases he : (v.reverse.dropWhile jsWhitespace).isEmpty = true
    · rw [if_pos he]
      by_cases hd : jsWhitespace d = true
      · left
        simp [List.dropWhile_cons, hd]
      · right
        simp [List.dropWhile_cons, hd]
    · rw [if_neg he]
      right
      rw [List.reverse_append]
      simp

/-- Helper: the trailing-whitespace strip leaves a non-whitespace last
character (when any character remains). -/
theorem getLast_trimRight (u : List Char) :
    (trimRight u).getLast?.all (fun c => !jsWhitespace c) = true := by
  unfold trimRight
  rw [List.getLast?_reverse]
  exact head_dropWhile_all jsWhitespace u.reverse

/-- Helper: a trimmed list starts with a non-whitespace character. -/
theorem head_jsTrim (l : List Char) :
    (jsTrim l).head?.all (fun c => !jsWhitespace c) = true := by
  unfold jsTrim
  rcases head_trimRight (trimLeft l) with h | h
  · rw [h]
    rfl
  · rw [h]
    exact head_dropWhile_all jsWhitespace l

/-- Helper: a trimmed list ends with a non-whitespace character. -/
theorem getLast_jsTrim (l : List Char) :
    (jsTrim l).getLast?.all (fun c => !jsWhitespace c) = true :=
  getLast_trimRight _

/-- Helper: lower-casing a list preserves a non-whitespace first character. -/
theorem head_map_jsToLower (m : List Char)
    (h : m.head?.all (fun c => !jsWhitespace c) = true) :
    ((m.map jsToLower).head?.all (fun c => !jsWhitespace c)) = true := by
  rw [List.head?_map]
  cases hm : m.head? with
  | none => rfl
  | some a =>
    rw [hm, Option.all_some] at h
    simp [jsWhitespace_jsToLower, h]

/-- Helper: lower-casing a list preserves a non-whitespace last character. -/
theorem getLast_map_jsToLower (m : List Char)
    (h : m.getLast?.all (fun c => !jsWhitespace c) = true) :
    ((m.map jsToLower).getLast?.all (fun c => !jsWhitespace c)) = true := by
  rw [List.getLast?_map]
  cases hm : m.getLast? with
  | none => rfl
  | some a =>
    rw [hm, Option.all_some] at h
    simp [jsWhitespace_jsToLower, h]

/-- C3: `normalizeDisplayName` output carries no leading or trailing
whitespace, no two adjacent whitespace characters (runs are collapsed to
one plain space), and is lower-case-stable; in particular the inputs
`"  Ocean Explorer  "` and `"ocean explorer"` normalize to the same key, so
after either reserves it, the other — requested by a different user —
throws `display_name_taken`. -/
theorem C3_normalization :
    (∀ s : String,
      ((normalizeDisplayName s).data.head?.all (fun c => !jsWhitespace c)) = true
      ∧ ((normalizeDisplayName s).data.getLast?.all (fun c => !jsWhitespace c)) = true
      ∧ List.Chain' (fun a b => ¬(jsWhitespace a = true ∧ jsWhitespace b = true))
          (normalizeDisplayName s).data
      ∧ (∀ c ∈ (normalizeDisplayName s).data, jsWhitespace c = true → c = ' ')
      ∧ (∀ c ∈ (normalizeDisplayName s).data, jsToLower c = c))
    ∧ normalizeDisplayName "  Ocean Explorer  " = "ocean explorer"
    ∧ normalizeDisplayName "ocean explorer" = "ocean explorer"
    ∧ (∀ (store : NameStore) (now1 now2 : Nat) (u1 u2 : String),
        u1 ≠ "" → u1 ≠ u2 →
        store (normalizeDisplayName "  Ocean Explorer  ") = none →
        ∃ st1, reserveDisplayName store now1 u1 "  Ocean Explorer  " ⟨false, none⟩
            = Except.ok (true, st1)
          ∧ reserveDisplayName st1 now2 u2 "ocean explorer" ⟨false, none⟩
            = Except.error "display_name_taken") := by
  refine ⟨fun s => ⟨?_, ?_, ?_, ?_, ?_⟩, rfl, rfl, ?_⟩
  · exact collapseWsAux_false_head _
      (head_map_jsToLower _ (head_jsTrim s.data))
  · exact collapseWsAux_last _ false
      (getLast_map_jsToLower _ (getLast_jsTrim s.data))
  · exact collapseWsAux_chain _ false
  · exact collapseWsAux_mem_space _ false
  · intro c hc
    rcases collapseWsAux_mem _ false c hc with rfl | hmem
    · decide
    · obtain ⟨d, _, rfl⟩ := List.mem_map.mp hmem
      exact jsToLower_idem d
  · intro store now1 now2 u1 u2 hu1 hne hfree
    exact reserve_then_conflict store now1 now2 u1 u2
      "  Ocean Explorer  " "ocean explorer" hu1 hne rfl (by decide) hfree

/-- C3 witness: the concrete race on `"  Ocean Explorer  "` and
`"ocean explorer"` from the empty store between `"uidA"` and `"uidB"`. -/
theorem C3_witness :
    ∃ st1, reserveDisplayName emptyNameStore 1 "uidA" "  Ocean Explorer  " ⟨false, none⟩
        = Except.ok (true, st1)
      ∧ reserveDisplayName st1 2 "uidB" "ocean explorer" ⟨false, none⟩
        = Except.error "display_name_taken" :=
  C3_normalization.2.2.2 emptyNameStore 1 2 "uidA" "uidB" (by decide) (by decide) rfl

end Logbook
